import Mathlib

/-!
Verification development for hubeau.py (river-gauge measurement tracker).

The Python source is shallowly embedded: timestamps are rationals (seconds
since the Unix epoch, so that datetime arithmetic and timedelta.days floor
division are exact), measurement values are rationals (metres), and the
mutable objects (Station, StationData) become immutable structures with
explicit state passing.  Each definition mirrors one Python method of
src/hubeau.py; the line numbers are given in the doc comments.
-/

/-- One measurement row, mirroring class StationData (hubeau.py:349-377):
station identifier, timestamp t (seconds since epoch, UTC), value v (metres)
and the merge state (0 = new, 1 = needs update, 2 = already loaded). -/
structure StationData where
  station : String
  t : ℚ
  v : ℚ
  state : Nat
  deriving DecidableEq

/-- The mutable fields of class Station (hubeau.py:379-429) that the sync
engine touches: identifier, measurement list, running time bounds x_lim,
running value bounds y_lim, and the database merge state. -/
structure Station where
  id : String
  data : List StationData
  x_lim : ℚ × ℚ
  y_lim : ℚ × ℚ
  state : Nat
  deriving DecidableEq

/-- datetime.datetime(1900,1,1,0,0,0) as seconds since the Unix epoch
(the sentinel initial value of x_lim[1] in Station.dbInit). -/
def date1900 : ℚ := -2208988800

/-- Station.dbInit (hubeau.py:423-429): reset the in-memory fields after a
load; data is emptied, x_lim gets the sentinel pair (utcnow, 1900-01-01),
y_lim the sentinel pair (9999.9, 0.0).  now is utcnow() in epoch seconds. -/
def Station.dbInit (s : Station) (now : ℚ) (state : Nat) : Station :=
  { s with data := [], x_lim := (now, date1900),
           y_lim := ((99999 : ℚ)/10, 0), state := state }

/-- Station.addData (hubeau.py:458-468): append one measurement, maintaining
the running min/max of timestamps (x_lim) and values (y_lim) on the way. -/
def Station.addData (s : Station) (d : StationData) : Station :=
  let xl0 := if d.t < s.x_lim.1 then d.t else s.x_lim.1
  let xl1 := if d.t > s.x_lim.2 then d.t else s.x_lim.2
  let yl0 := if d.v < s.y_lim.1 then d.v else s.y_lim.1
  let yl1 := if d.v > s.y_lim.2 then d.v else s.y_lim.2
  { s with x_lim := (xl0, xl1), y_lim := (yl0, yl1), data := s.data ++ [d] }

/-- The loop body of Station.checkData (hubeau.py:476-483) applied to the
already reversed list self.data[::-1]: walk the (reversed) list; break with 0
as soon as an element is strictly older than the candidate; at an equal
timestamp return 2 when the values agree within 0.001 and 1 otherwise;
falling off the end returns 0. -/
def checkScan : List StationData → StationData → Nat
  | [], _ => 0
  | d :: rest, c =>
      if d.t < c.t then 0
      else if d.t = c.t then
        (if |d.v - c.v| < 1/1000 then 2 else 1)
      else checkScan rest c

/-- Station.checkData (hubeau.py:470-486): classify a candidate measurement
against the local series.  The scan runs over self.data[::-1]; a candidate of
another station falls through to the final return 0 (after an error print). -/
def Station.checkData (s : Station) (c : StationData) : Nat :=
  if c.station = s.id then checkScan s.data.reverse c else 0

/-- A full linear scan of the whole series (no early exit, no reliance on
ordering), the reference the spec compares Station.checkData against: the
first element with the candidate timestamp decides (2 within tolerance,
1 outside), otherwise 0. -/
def fullScan : List StationData → StationData → Nat
  | [], _ => 0
  | d :: rest, c =>
      if d.t = c.t then (if |d.v - c.v| < 1/1000 then 2 else 1)
      else fullScan rest c

/-! ### Lemmas about the two scans -/

/-- If no element carries the candidate timestamp, the backward scan falls
through to 0; no ordering assumption needed. -/
theorem checkScan_of_no_match (l : List StationData) (c : StationData)
    (h : ∀ d ∈ l, d.t ≠ c.t) : checkScan l c = 0 := by
  induction l with
  | nil => rfl
  | cons d rest ih =>
      have hd : d.t ≠ c.t := h d (List.mem_cons_self d rest)
      by_cases hlt : d.t < c.t
      · simp [checkScan, hlt]
      · simp [checkScan, hlt, hd]
        exact ih fun x hx => h x (List.mem_cons_of_mem d hx)

/-- If no element carries the candidate timestamp, the full scan returns 0. -/
theorem fullScan_of_no_match (l : List StationData) (c : StationData)
    (h : ∀ d ∈ l, d.t ≠ c.t) : fullScan l c = 0 := by
  induction l with
  | nil => rfl
  | cons d rest ih =>
      have hd : d.t ≠ c.t := h d (List.mem_cons_self d rest)
      simp [fullScan, hd]
      exact ih fun x hx => h x (List.mem_cons_of_mem d hx)

/-- On a strictly descending list (the reverse of a strictly ascending
series), the backward scan finds the unique element with the candidate
timestamp and classifies by its value. -/
theorem checkScan_of_match (l : List StationData) (c d0 : StationData)
    (hs : l.Pairwise (fun a b => b.t < a.t)) (hmem : d0 ∈ l) (ht : d0.t = c.t) :
    checkScan l c = (if |d0.v - c.v| < 1/1000 then 2 else 1) := by
  induction l with
  | nil => cases hmem
  | cons d rest ih =>
      rcases List.pairwise_cons.mp hs with ⟨hd, hrest⟩
      rcases List.mem_cons.mp hmem with h0 | h0
      · subst h0
        simp [checkScan, ht, lt_irrefl]
      · have hlt : d0.t < d.t := hd d0 h0
        have hne : ¬ d.t = c.t := by
          rw [← ht]; exact fun h => absurd h (ne_of_gt hlt)
        have hnlt : ¬ d.t < c.t := by
          rw [← ht]; exact not_lt.mpr (le_of_lt hlt)
        simp only [checkScan, if_neg hnlt, if_neg hne]
        exact ih hrest h0

/-- On a list with pairwise distinct timestamps, the full scan finds the
unique element with the candidate timestamp and classifies by its value. -/
theorem fullScan_of_match (l : List StationData) (c d0 : StationData)
    (hnd : l.Pairwise (fun a b => a.t ≠ b.t)) (hmem : d0 ∈ l) (ht : d0.t = c.t) :
    fullScan l c = (if |d0.v - c.v| < 1/1000 then 2 else 1) := by
  induction l with
  | nil => cases hmem
  | cons d rest ih =>
      rcases List.pairwise_cons.mp hnd with ⟨hd, hrest⟩
      rcases List.mem_cons.mp hmem with h0 | h0
      · subst h0
        simp [fullScan, ht]
      · have hne : ¬ d.t = c.t := by
          rw [← ht]; exact hd d0 h0
        simp only [fullScan, if_neg hne]
        exact ih hrest h0

/-- The concrete point (t = 2024-01-01T00:00:00Z, v = 1.234 m) used by the
classification witnesses. -/
def exPoint : StationData :=
  { station := "A123456789", t := 1704067200, v := 1234/1000, state := 2 }

/-- The concrete one-point series used by the classification witnesses:
a station holding only exPoint. -/
def exSeries : Station :=
  { id := "A123456789", data := [exPoint],
    x_lim := (1704067200, 1704067200), y_lim := (1234/1000, 1234/1000), state := 2 }

/-- C1: on a series sorted ascending by timestamp (with the per-series
uniqueness invariant, i.e. strictly ascending) and a candidate of the same
station, Station.checkData returns 2 (Unchanged) when some existing point has
an equal timestamp and a value within 0.001, 1 (Conflicting) when the value
differs by at least 0.001, and 0 (New) when no timestamp matches. -/
theorem C1_checkData_classification (s : Station) (c : StationData)
    (hsort : s.data.Pairwise (fun a b => a.t < b.t))
    (hst : c.station = s.id) :
    ((∃ d ∈ s.data, d.t = c.t ∧ |d.v - c.v| < 1/1000) → s.checkData c = 2) ∧
    ((∃ d ∈ s.data, d.t = c.t ∧ 1/1000 ≤ |d.v - c.v|) → s.checkData c = 1) ∧
    ((∀ d ∈ s.data, d.t ≠ c.t) → s.checkData c = 0) := by
  have hrev : s.data.reverse.Pairwise (fun a b => b.t < a.t) :=
    List.pairwise_reverse.mpr hsort
  refine ⟨?_, ?_, ?_⟩
  · rintro ⟨d0, hd0, ht, hv⟩
    rw [Station.checkData, if_pos hst,
        checkScan_of_match _ c d0 hrev (List.mem_reverse.mpr hd0) ht, if_pos hv]
  · rintro ⟨d0, hd0, ht, hv⟩
    rw [Station.checkData, if_pos hst,
        checkScan_of_match _ c d0 hrev (List.mem_reverse.mpr hd0) ht,
        if_neg (not_lt.mpr hv)]
  · intro h
    rw [Station.checkData, if_pos hst,
        checkScan_of_no_match _ c (fun d hd => h d (List.mem_reverse.mp hd))]

/-- Witness for C1 at the spec's own example: same timestamp and v = 1.234
gives 2 (Unchanged), v = 1.240 gives 1 (Conflicting), and a candidate one
hour later gives 0 (New). -/
theorem C1_checkData_classification_witness :
    Station.checkData exSeries
      { station := "A123456789", t := 1704067200, v := 1234/1000, state := 0 } = 2 ∧
    Station.checkData exSeries
      { station := "A123456789", t := 1704067200, v := 1240/1000, state := 0 } = 1 ∧
    Station.checkData exSeries
      { station := "A123456789", t := 1704070800, v := 1234/1000, state := 0 } = 0 := by
  refine ⟨?_, ?_, ?_⟩
  · exact (C1_checkData_classification exSeries _ (by simp [exSeries]) rfl).1
      ⟨exPoint, by simp [exSeries], rfl, by norm_num [exPoint]⟩
  · exact (C1_checkData_classification exSeries _ (by simp [exSeries]) rfl).2.1
      ⟨exPoint, by simp [exSeries], rfl, by norm_num [exPoint, abs_sub_comm, abs_of_nonneg]⟩
  · exact (C1_checkData_classification exSeries _ (by simp [exSeries]) rfl).2.2
      (by intro d hd; simp [exSeries] at hd; subst hd; norm_num [exPoint])

/-- C2: on a sorted series (strictly ascending, the per-series uniqueness
invariant), the backward early-exit scan of Station.checkData returns the
same merge state as a full linear scan over the entire series. -/
theorem C2_backward_scan_equiv (s : Station) (c : StationData)
    (hsort : s.data.Pairwise (fun a b => a.t < b.t))
    (hst : c.station = s.id) :
    s.checkData c = fullScan s.data c := by
  have hrev : s.data.reverse.Pairwise (fun a b => b.t < a.t) :=
    List.pairwise_reverse.mpr hsort
  have hnd : s.data.Pairwise (fun a b => a.t ≠ b.t) :=
    hsort.imp fun h => ne_of_lt h
  by_cases hex : ∃ d ∈ s.data, d.t = c.t
  · obtain ⟨d0, hd0, ht⟩ := hex
    rw [Station.checkData, if_pos hst,
        checkScan_of_match _ c d0 hrev (List.mem_reverse.mpr hd0) ht,
        fullScan_of_match _ c d0 hnd hd0 ht]
  · push_neg at hex
    rw [Station.checkData, if_pos hst,
        checkScan_of_no_match _ c (fun d hd => hex d (List.mem_reverse.mp hd)),
        fullScan_of_no_match _ c hex]

/-- Witness for C2 at a concrete sorted two-point series and a conflicting
candidate. -/
theorem C2_backward_scan_equiv_witness :
    Station.checkData exSeries
        { station := "A123456789", t := 1704067200, v := 1240/1000, state := 0 } =
      fullScan exSeries.data
        { station := "A123456789", t := 1704067200, v := 1240/1000, state := 0 } :=
  C2_backward_scan_equiv exSeries _ (by simp [exSeries]) rfl

/-- The per-point body of the pagination loop in Station.downloadData
(hubeau.py:601-614): build a StationData for the decoded raw point (the
station field is always self.id), set its state to the result of checkData,
and append it via addData only when that state is 0; states 1 and 2 leave
the series untouched (state 1 is only reported). -/
def mergePoint (s : Station) (t v : ℚ) : Station :=
  let d0 : StationData := { station := s.id, t := t, v := v, state := 0 }
  let d : StationData := { d0 with state := s.checkData d0 }
  if d.state = 0 then s.addData d else s

/-- The whole per-page point loop of Station.downloadData: merge the decoded
raw points (timestamp, canonical value in metres) left to right. -/
def mergePoints (s : Station) (raw : List (ℚ × ℚ)) : Station :=
  raw.foldl (fun acc p => mergePoint acc p.1 p.2) s

/-- If every raw point is already present in the (strictly sorted) series
with a value within tolerance, every merge is classified 2 and the station
is left untouched. -/
theorem mergePoints_of_all_present (s : Station)
    (hsort : s.data.Pairwise (fun a b => a.t < b.t)) :
    ∀ raw : List (ℚ × ℚ),
      (∀ p ∈ raw, ∃ d ∈ s.data, d.t = p.1 ∧ |d.v - p.2| < 1/1000) →
      mergePoints s raw = s := by
  intro raw
  induction raw with
  | nil => intro _; rfl
  | cons p ps ih =>
      intro hall
      have hrev : s.data.reverse.Pairwise (fun a b => b.t < a.t) :=
        List.pairwise_reverse.mpr hsort
      obtain ⟨d0, hd0, ht, hv⟩ := hall p (List.mem_cons_self p ps)
      have h2 : s.checkData { station := s.id, t := p.1, v := p.2, state := 0 } = 2 := by
        rw [Station.checkData, if_pos rfl,
            checkScan_of_match _ _ d0 hrev (List.mem_reverse.mpr hd0) ht, if_pos hv]
      have hmp : mergePoint s p.1 p.2 = s := by
        simp [mergePoint, h2]
      have hstep : mergePoints s (p :: ps) = mergePoints s ps := by
        simp only [mergePoints, List.foldl_cons, hmp]
      rw [hstep]
      exact ih fun q hq => hall q (List.mem_cons_of_mem p hq)

/-- C3: a second sync pass in which every fetched point is already present
locally with a value within tolerance leaves the series unchanged: the
station is literally equal, so the length, the time bounds x_lim, the value
bounds y_lim are unchanged and the timestamps stay pairwise distinct. -/
theorem C3_sync_idempotent (s : Station) (raw : List (ℚ × ℚ))
    (hsort : s.data.Pairwise (fun a b => a.t < b.t))
    (hall : ∀ p ∈ raw, ∃ d ∈ s.data, d.t = p.1 ∧ |d.v - p.2| < 1/1000) :
    mergePoints s raw = s ∧
    (mergePoints s raw).data.length = s.data.length ∧
    (mergePoints s raw).x_lim = s.x_lim ∧
    (mergePoints s raw).y_lim = s.y_lim ∧
    (mergePoints s raw).data.Pairwise (fun a b => a.t ≠ b.t) := by
  have hmain : mergePoints s raw = s := mergePoints_of_all_present s hsort raw hall
  refine ⟨hmain, by rw [hmain], by rw [hmain], by rw [hmain], ?_⟩
  rw [hmain]
  exact hsort.imp fun h => ne_of_lt h

/-- Witness for C3: re-fetching the single stored point of the example
series changes nothing. -/
theorem C3_sync_idempotent_witness :
    mergePoints exSeries [(1704067200, 1234/1000)] = exSeries :=
  (C3_sync_idempotent exSeries [(1704067200, 1234/1000)]
    (by simp [exSeries])
    (by
      intro p hp
      simp only [List.mem_singleton] at hp
      subst hp
      exact ⟨exPoint, by simp [exSeries], rfl, by norm_num [exPoint]⟩)).1

/-- One SQLAlchemy session operation issued by DataBase.store. -/
inductive DbOp where
  | addStation (id : String)
  | addData (station : String) (t : ℚ) (v : ℚ)
  | updateData (station : String) (t : ℚ) (v : ℚ)
  | commit
  deriving DecidableEq

/-- The operations the per-station body of DataBase.store (hubeau.py:338-347)
issues for one station: when the station record is new (state 0), add it and
commit at once; then add every measurement with state 0 and call the (update)
path for every measurement with state 1; finally commit. -/
def storeStation (s : Station) : List DbOp :=
  (if s.state = 0 then [DbOp.addStation s.id, DbOp.commit] else []) ++
  (s.data.map fun d =>
      if d.state = 0 then [DbOp.addData d.station d.t d.v]
      else if d.state = 1 then [DbOp.updateData d.station d.t d.v]
      else []).flatten ++
  [DbOp.commit]

/-- DataBase.store (hubeau.py:332-347): the full operation trace over the
station list, in order. -/
def DataBase.store (stations : List Station) : List DbOp :=
  (stations.map storeStation).flatten

/-- One merge step never produces a measurement with state 1: either the
station is untouched or the appended point carries state 0. -/
theorem mergePoint_state_ne_one (s : Station) (t v : ℚ)
    (h : ∀ d ∈ s.data, d.state ≠ 1) :
    ∀ d ∈ (mergePoint s t v).data, d.state ≠ 1 := by
  intro d hd
  simp only [mergePoint] at hd
  split at hd
  · simp only [Station.addData, List.mem_append, List.mem_singleton] at hd
    rcases hd with hd | hd
    · exact h d hd
    · subst hd
      next hc => simp [hc]
  · exact h d hd

/-- The merge loop preserves the absence of state 1 in the series. -/
theorem mergePoints_state_ne_one :
    ∀ (raw : List (ℚ × ℚ)) (s : Station), (∀ d ∈ s.data, d.state ≠ 1) →
      ∀ d ∈ (mergePoints s raw).data, d.state ≠ 1 := by
  intro raw
  induction raw with
  | nil => intro s h; exact h
  | cons p ps ih =>
      intro s h
      have hstep : mergePoints s (p :: ps) = mergePoints (mergePoint s p.1 p.2) ps := by
        simp only [mergePoints, List.foldl_cons]
      rw [hstep]
      exact ih (mergePoint s p.1 p.2) (mergePoint_state_ne_one s p.1 p.2 h)

/-- If no measurement of a station has state 1, its store trace holds no
update operation. -/
theorem storeStation_no_update (s : Station) (h : ∀ d ∈ s.data, d.state ≠ 1) :
    ∀ op ∈ storeStation s, ∀ sid t v, op ≠ DbOp.updateData sid t v := by
  intro op hop sid t v
  simp only [storeStation, List.mem_append, List.mem_flatten, List.mem_map] at hop
  rcases hop with (hop | ⟨l, ⟨d, hd, hl⟩, hopl⟩) | hop
  · by_cases hs0 : s.state = 0
    · simp only [if_pos hs0, List.mem_cons, List.not_mem_nil, or_false] at hop
      rcases hop with h | h <;> simp [h]
    · simp only [if_neg hs0] at hop
      cases hop
  · subst hl
    have hne := h d hd
    by_cases h0 : d.state = 0
    · simp only [if_pos h0, List.mem_singleton] at hopl
      simp [hopl]
    · simp only [if_neg h0, if_neg hne] at hopl
      cases hopl
  · simp only [List.mem_singleton] at hop
    simp [hop]

/-- C9: during a sync pass, a point whose classification is not 0 (New)
leaves the station — elements and running bounds — completely unchanged;
the merge loop therefore never places a state-1 (Conflicting) element in
station.data, and the store trace of the merged station contains no update
operation (the state==1 branch of DataBase.store is never reached). -/
theorem C9_only_new_appended (s : Station) (raw : List (ℚ × ℚ))
    (hstate : ∀ d ∈ s.data, d.state ≠ 1) :
    (∀ t v, s.checkData { station := s.id, t := t, v := v, state := 0 } ≠ 0 →
        mergePoint s t v = s) ∧
    (∀ d ∈ (mergePoints s raw).data, d.state ≠ 1) ∧
    (∀ op ∈ storeStation (mergePoints s raw), ∀ sid t v,
        op ≠ DbOp.updateData sid t v) := by
  refine ⟨?_, mergePoints_state_ne_one raw s hstate,
          storeStation_no_update _ (mergePoints_state_ne_one raw s hstate)⟩
  intro t v h
  simp only [mergePoint]
  rw [if_neg h]

/-- Witness for C9 at the example series and a conflicting fetched point
(same timestamp, value 1.240): nothing with state 1 enters the series and
no update operation is issued. -/
theorem C9_only_new_appended_witness :
    (∀ t v, exSeries.checkData { station := exSeries.id, t := t, v := v, state := 0 } ≠ 0 →
        mergePoint exSeries t v = exSeries) ∧
    (∀ d ∈ (mergePoints exSeries [(1704067200, 1240/1000)]).data, d.state ≠ 1) ∧
    (∀ op ∈ storeStation (mergePoints exSeries [(1704067200, 1240/1000)]), ∀ sid t v,
        op ≠ DbOp.updateData sid t v) :=
  C9_only_new_appended exSeries [(1704067200, 1240/1000)] (by decide)

/-- A new station (state 0) holding one New measurement, the concrete input
for the persistence claims. -/
def exNewStation : Station :=
  { id := "S000000001", data := [{ station := "S000000001", t := 0, v := 1, state := 0 }],
    x_lim := (0, 0), y_lim := (1, 1), state := 0 }

/-- Counterexample to C8 as stated: for a new station with one New
measurement the trace already commits right after the station add, so a
commit separates the station record from its measurements — the record and
the measurements are two transactions, not one. -/
theorem C8_store_two_transactions :
    DataBase.store [exNewStation] =
      [DbOp.addStation "S000000001", DbOp.commit,
       DbOp.addData "S000000001" 0 1, DbOp.commit] ∧
    (DataBase.store [exNewStation]).take 2 =
      [DbOp.addStation "S000000001", DbOp.commit] ∧
    DbOp.addData "S000000001" 0 1 ∈ (DataBase.store [exNewStation]).drop 2 := by
  refine ⟨rfl, rfl, ?_⟩
  simp [DataBase.store, exNewStation, storeStation]

/-- C8 amended: for a station whose record is new, DataBase.store persists
the record first and commits it at once, then issues the measurement
operations (adds for state 0, the update path for state 1, nothing for
state 2) and commits them in a second, separate transaction; the record is
persisted before any of its measurements, but record and measurements are
not atomic together. -/
theorem C8_store_record_first (s : Station) (hs : s.state = 0) :
    ∃ ops, storeStation s =
        [DbOp.addStation s.id, DbOp.commit] ++ ops ++ [DbOp.commit] ∧
      ∀ op ∈ ops, ∃ d ∈ s.data,
        (d.state = 0 ∧ op = DbOp.addData d.station d.t d.v) ∨
        (d.state = 1 ∧ op = DbOp.updateData d.station d.t d.v) := by
  refine ⟨(s.data.map fun d =>
      if d.state = 0 then [DbOp.addData d.station d.t d.v]
      else if d.state = 1 then [DbOp.updateData d.station d.t d.v]
      else []).flatten, ?_, ?_⟩
  · simp [storeStation, hs]
  · intro op hop
    simp only [List.mem_flatten, List.mem_map] at hop
    obtain ⟨l, ⟨d, hd, hl⟩, hopl⟩ := hop
    subst hl
    refine ⟨d, hd, ?_⟩
    by_cases h0 : d.state = 0
    · simp only [if_pos h0, List.mem_singleton] at hopl
      exact Or.inl ⟨h0, hopl⟩
    · by_cases h1 : d.state = 1
      · simp only [if_neg h0, if_pos h1, List.mem_singleton] at hopl
        exact Or.inr ⟨h1, hopl⟩
      · simp only [if_neg h0, if_neg h1] at hopl
        cases hopl

/-- Witness for C8 amended at the concrete new station. -/
theorem C8_store_record_first_witness :
    ∃ ops, storeStation exNewStation =
        [DbOp.addStation exNewStation.id, DbOp.commit] ++ ops ++ [DbOp.commit] ∧
      ∀ op ∈ ops, ∃ d ∈ exNewStation.data,
        (d.state = 0 ∧ op = DbOp.addData d.station d.t d.v) ∨
        (d.state = 1 ∧ op = DbOp.updateData d.station d.t d.v) :=
  C8_store_record_first exNewStation rfl

/-- One page response of the observations API, as Station.downloadData
discriminates them (hubeau.py:586-624): HTTP status above 206, a non-JSON
content type, an unsupported API major version, or a good page carrying raw
points (timestamp, value in millimetres) and an optional next URL. -/
inductive PageResult where
  | httpError (status : Nat)
  | notJson
  | badVersion (major : String)
  | ok (pts : List (ℚ × ℚ)) (next : Option String)
  deriving DecidableEq

/-- The state of the while loop of Station.downloadData: the url variable
driving the loop, the (Python-scoped) next variable that survives from the
last successfully decoded page, and the station being merged into. -/
structure LoopState where
  url : Option String
  nextVar : Option String
  merged : Station
  deriving DecidableEq

/-- One iteration of the pagination loop (hubeau.py:583-624).  On a status
above 206 the code sets url=None and stops.  For a good page it merges the
points (values converted from millimetres) and follows the fresh next link.
For a non-JSON page or an unsupported API version the code prints an error
but still executes url=next, so url is re-assigned from the STALE next
variable of the previous page. -/
def downloadStep (st : LoopState) (r : PageResult) : LoopState :=
  match st.url with
  | none => st
  | some _ =>
    match r with
    | .httpError _ => { st with url := none }
    | .notJson => { st with url := st.nextVar }
    | .badVersion _ => { st with url := st.nextVar }
    | .ok pts nxt =>
        { st with url := nxt, nextVar := nxt,
                  merged := mergePoints st.merged (pts.map fun p => (p.1, p.2 / 1000)) }

/-- The pagination loop run over a list of page responses; once url is None
no further response is consumed. -/
def downloadRun (st : LoopState) (pages : List PageResult) : LoopState :=
  pages.foldl downloadStep st

/-- A freshly initialised station for the pagination run. -/
def exFresh : Station :=
  Station.dbInit { id := "B000000001", data := [], x_lim := (0, 0), y_lim := (0, 0), state := 0 }
    1704067200 0

/-- The loop state after page 1 succeeds (one point, next = page2) and
page 2 answers with a non-JSON content type. -/
def exRun : LoopState :=
  downloadRun { url := some "page1", nextVar := some "builtinNext", merged := exFresh }
    [PageResult.ok [(100, 1500)] (some "page2"), PageResult.notJson]

/-- C5 (code bug): after the non-JSON failure on page 2 the loop variable
url is re-assigned from the stale next of page 1, so it is still some
"page2" — the loop does NOT terminate and requests a further page,
contradicting the intended terminate-immediately behaviour (only the
HTTP-status branch sets url=None).  The point merged from page 1 is
retained. -/
theorem C5_failure_keeps_paginating :
    exRun.url = some "page2" ∧
    exRun.merged.data = [{ station := "B000000001", t := 100, v := 1500/1000, state := 0 }] ∧
    (1500 : ℚ)/1000 = 3/2 := by
  exact ⟨rfl, rfl, by norm_num⟩

/-- The cursor selection of Station.getStation (hubeau.py:798-808): when the
local series is non-empty, sort it by timestamp, take the last (latest)
timestamp as the download start date, and drop it (date=None, a fetch with
no start date) when the whole-day age (now − date).days exceeds 28; an empty
series also yields no start date.  timedelta.days is the floor of the age in
seconds divided by 86400. -/
def Station.getStationCursor (now : ℚ) (s : Station) : Option ℚ :=
  if 0 < s.data.length then
    match (List.insertionSort (fun a b => a.t ≤ b.t) s.data).getLast? with
    | some d => if 28 < ⌊(now - d.t) / 86400⌋ then none else some d.t
    | none => none
  else none

/-- In a list sorted ascending by timestamp, the last element has the
largest timestamp. -/
theorem sorted_le_getLast :
    ∀ (l : List StationData), l.Pairwise (fun a b => a.t ≤ b.t) →
      ∀ m, l.getLast? = some m → ∀ d ∈ l, d.t ≤ m.t := by
  intro l
  induction l with
  | nil => intro _ m hm; cases hm
  | cons a rest ih =>
      intro hp m hm d hd
      rcases List.pairwise_cons.mp hp with ⟨ha, hrest⟩
      cases rest with
      | nil =>
          simp only [List.getLast?_singleton, Option.some.injEq] at hm
          subst hm
          simp only [List.mem_singleton] at hd
          subst hd
          exact le_refl _
      | cons b rest2 =>
          rw [List.getLast?_cons_cons] at hm
          rcases List.mem_cons.mp hd with hd | hd
          · subst hd
            have hb : b.t ≤ m.t :=
              ih hrest m hm b (List.mem_cons_self b rest2)
            exact le_trans (ha b (List.mem_cons_self b rest2)) hb
          · exact ih hrest m hm d hd

/-- The whole-day test of the retention check: (now − date).days > 28 holds
exactly when the age reaches 29 full days. -/
theorem floor_day_gt_28 (age : ℚ) :
    28 < ⌊age / 86400⌋ ↔ 29 * 86400 ≤ age := by
  rw [Int.lt_iff_add_one_le, Int.le_floor,
      le_div_iff₀ (by norm_num : (0:ℚ) < 86400)]
  norm_num

/-- C4 amended: for a non-empty (sorted, duplicate-free) series the sync
cursor is the latest local timestamp; it is discarded — the fetch is issued
with NO start date, not with the retention-boundary date — exactly when the
whole-day age (now − cursor).days exceeds 28, i.e. when the age reaches
29 full days; any younger cursor, including one at exactly 28 days or up to
28 days 23:59:59 (which exceeds the 28-day limit but not in whole days), is
used unmodified. -/
theorem C4_retention_cursor (now : ℚ) (s : Station)
    (hsort : s.data.Pairwise (fun a b => a.t < b.t)) (hne : s.data ≠ []) :
    ∃ m ∈ s.data, (∀ d ∈ s.data, d.t ≤ m.t) ∧
      (29 * 86400 ≤ now - m.t → Station.getStationCursor now s = none) ∧
      (now - m.t < 29 * 86400 → Station.getStationCursor now s = some m.t) := by
  have hle : List.Sorted (fun a b : StationData => a.t ≤ b.t) s.data :=
    hsort.imp fun h => le_of_lt h
  have hins : List.insertionSort (fun a b : StationData => a.t ≤ b.t) s.data = s.data :=
    List.Sorted.insertionSort_eq hle
  have hlast : s.data.getLast? = some (s.data.getLast hne) :=
    List.getLast?_eq_getLast s.data hne
  have hlen : 0 < s.data.length := List.length_pos.mpr hne
  set m := s.data.getLast hne with hm
  have hcur : Station.getStationCursor now s =
      (if 28 < ⌊(now - m.t) / 86400⌋ then none else some m.t) := by
    simp only [Station.getStationCursor, if_pos hlen, hins, hlast]
  refine ⟨m, List.getLast_mem hne, sorted_le_getLast s.data hle m hlast, ?_, ?_⟩
  · intro h
    rw [hcur, if_pos ((floor_day_gt_28 (now - m.t)).mpr h)]
  · intro h
    rw [hcur, if_neg ?_]
    rw [floor_day_gt_28]
    exact not_le.mpr h

/-- Witness for C4 amended: the one-point example series with an age of
exactly 29 days loses its cursor (the fetch starts with no date). -/
theorem C4_retention_cursor_witness :
    Station.getStationCursor (1704067200 + 29 * 86400) exSeries = none := by
  obtain ⟨m, hm, _, h1, _⟩ := C4_retention_cursor (1704067200 + 29 * 86400) exSeries
    (by simp [exSeries]) (by simp [exSeries])
  simp only [exSeries, List.mem_singleton] at hm
  subst hm
  exact h1 (by norm_num [exPoint])

/-- Counterexample to C4 as stated: a cursor aged 28 days and 1 second
exceeds the 28-day retention limit, yet the code keeps it unmodified
(timedelta.days floors to 28), instead of discarding it. -/
theorem C4_cursor_kept_beyond_limit :
    (1706486401 : ℚ) - exPoint.t > 28 * 86400 ∧
    Station.getStationCursor 1706486401 exSeries = some exPoint.t := by
  constructor
  · norm_num [exPoint]
  · have hfloor : ⌊((1706486401 : ℚ) - 1704067200) / 86400⌋ = 28 := by
      rw [Int.floor_eq_iff]
      norm_num
    simp [Station.getStationCursor, exSeries, exPoint, hfloor]

/-- The per-station inner loop of StationList.computeMinMax
(hubeau.py:896-918): starting from the sentinels tmin=utcnow,
tmax=1900-01-01, vmin=9999.9, vmax=0.0, fold the station's points; when both
window edges are None every point counts, otherwise a missing edge defaults
to 1900-01-01 resp. utcnow and only points inside [date_min, date_max]
count.  The accumulator is ((tmin, tmax), (vmin, vmax)). -/
def stationRange (now : ℚ) (date_min date_max : Option ℚ) (s : Station) :
    (ℚ × ℚ) × (ℚ × ℚ) :=
  let upd := fun (acc : (ℚ × ℚ) × (ℚ × ℚ)) (d : StationData) =>
    let tmax := if d.t > acc.1.2 then d.t else acc.1.2
    let tmin := if d.t < acc.1.1 then d.t else acc.1.1
    let vmax := if d.v > acc.2.2 then d.v else acc.2.2
    let vmin := if d.v < acc.2.1 then d.v else acc.2.1
    ((tmin, tmax), (vmin, vmax))
  let init := ((now, date1900), ((99999 : ℚ)/10, (0 : ℚ)))
  match date_min, date_max with
  | none, none => s.data.foldl upd init
  | _, _ =>
      let dmin := date_min.getD date1900
      let dmax := date_max.getD now
      s.data.foldl (fun acc d => if dmin ≤ d.t ∧ d.t ≤ dmax then upd acc d else acc) init

/-- StationList.computeMinMax (hubeau.py:891-941), combining the per-station
ranges into the common x_lim/y_lim.  Line 935 of the source reads
(if vmin>y_lim[1]: y_lim[1]=vmax) — the condition tests vmin where the
symmetric x branch tests tmax — and the embedding keeps that verbatim. -/
def StationList.computeMinMax (now : ℚ) (stations : List Station)
    (date_min date_max : Option ℚ) : Option (ℚ × ℚ) × Option (ℚ × ℚ) :=
  stations.foldl
    (fun acc s =>
      let r := stationRange now date_min date_max s
      let x_lim := match acc.1 with
        | none => some (r.1.1, r.1.2)
        | some xl => some ((if r.1.1 < xl.1 then r.1.1 else xl.1),
                           (if r.1.2 > xl.2 then r.1.2 else xl.2))
      let y_lim := match acc.2 with
        | none => some (r.2.1, r.2.2)
        | some yl => some ((if r.2.1 < yl.1 then r.2.1 else yl.1),
                           (if r.2.1 > yl.2 then r.2.2 else yl.2))
      (x_lim, y_lim))
    (none, none)

/-- First station for the bounds claims: in-window values 1 and 2. -/
def exStA : Station :=
  { id := "C000000001",
    data := [{ station := "C000000001", t := 10, v := 1, state := 2 },
             { station := "C000000001", t := 20, v := 2, state := 2 }],
    x_lim := (0, 0), y_lim := (0, 0), state := 2 }

/-- Second station for the bounds claims: in-window values 2 and 5, whose
maximum 5 exceeds the first station's maximum. -/
def exStB : Station :=
  { id := "C000000002",
    data := [{ station := "C000000002", t := 30, v := 2, state := 2 },
             { station := "C000000002", t := 40, v := 5, state := 2 }],
    x_lim := (0, 0), y_lim := (0, 0), state := 2 }

/-- C6 (code bug): over the window [0, 100] the two stations hold values
{1, 2} and {2, 5}, so the union value range is [1, 5]; but computeMinMax
returns the value range [1, 2] — station B's maximum 5 is dropped because
line 935 tests vmin (2, not above the running maximum 2) instead of vmax.
The time range [10, 40] is correct. -/
theorem C6_computeMinMax_drops_max :
    StationList.computeMinMax 1000000 [exStA, exStB] (some 0) (some 100) =
      (some ((10 : ℚ), (40 : ℚ)), some ((1 : ℚ), (2 : ℚ))) ∧
    (∃ d ∈ exStB.data, (0 : ℚ) ≤ d.t ∧ d.t ≤ 100 ∧ d.v = 5) ∧ (2 : ℚ) < 5 := by
  refine ⟨?_, ⟨{ station := "C000000002", t := 40, v := 5, state := 2 },
      by simp [exStB], by norm_num, by norm_num, rfl⟩, by norm_num⟩
  norm_num [StationList.computeMinMax, stationRange, exStA, exStB, date1900]

/-- The measurement query of DataBase.load (hubeau.py:308-330): with
dt = timedelta(days=plotdays+1) and tm = utcnow() − dt, the session returns
the persisted rows of the requested station whose timestamp t satisfies
t ≥ tm.  The SQL query is modelled as a filter over the persisted rows. -/
def DataBase.loadMeasurements (now plotdays : ℚ) (sid : String)
    (rows : List StationData) : List StationData :=
  let tm := now - (plotdays + 1) * 86400
  rows.filter (fun r => r.station == sid && decide (r.t ≥ tm))

/-- A persisted row 5 days old (now = 0). -/
def rowM5d : StationData := { station := "S000000001", t := -432000, v := 1, state := 2 }

/-- A persisted row 15 days old (now = 0). -/
def rowM15d : StationData := { station := "S000000001", t := -1296000, v := 1, state := 2 }

/-- A persisted row 35 days old (now = 0). -/
def rowM35d : StationData := { station := "S000000001", t := -3024000, v := 1, state := 2 }

/-- A persisted row 10.5 days old (now = 0), inside the one-day slack that
DataBase.load adds beyond the lookback window. -/
def rowM10h : StationData := { station := "S000000001", t := -907200, v := 1, state := 2 }

/-- Counterexample to C7 as stated: with a 10-day lookback window
(plotdays = 10) the row aged 10.5 days is older than now − lookbackWindow,
so the claim says it is not loaded; DataBase.load nevertheless returns it,
because the query threshold is now − (plotdays + 1) days. -/
theorem C7_load_returns_older_row :
    (0 : ℚ) - rowM10h.t > 10 * 86400 ∧
    DataBase.loadMeasurements 0 10 "S000000001" [rowM5d, rowM10h] = [rowM5d, rowM10h] := by
  constructor
  · norm_num [rowM10h]
  · norm_num [DataBase.loadMeasurements, List.filter, rowM5d, rowM10h]

/-- C7 amended: DataBase.load returns exactly the persisted rows of the
requested station whose timestamp is at least now − (lookbackWindow + 1 day)
— the code adds one day of slack to the configured window — and, as in the
claim, with persisted points at now−5d, now−15d, now−35d and a 10-day
window only the now−5d point is returned. -/
theorem C7_load_window :
    (∀ (now plotdays : ℚ) (sid : String) (rows : List StationData) (r : StationData),
      r ∈ DataBase.loadMeasurements now plotdays sid rows ↔
        (r ∈ rows ∧ r.station = sid ∧ now - r.t ≤ (plotdays + 1) * 86400)) ∧
    DataBase.loadMeasurements 0 10 "S000000001" [rowM5d, rowM15d, rowM35d] = [rowM5d] := by
  constructor
  · intro now plotdays sid rows r
    simp only [DataBase.loadMeasurements, List.mem_filter, Bool.and_eq_true,
      beq_iff_eq, decide_eq_true_eq, ge_iff_le, and_assoc]
    constructor
    · rintro ⟨hr, hs, ht⟩
      exact ⟨hr, hs, by linarith⟩
    · rintro ⟨hr, hs, ht⟩
      exact ⟨hr, hs, by linarith⟩
  · norm_num [DataBase.loadMeasurements, List.filter, rowM5d, rowM15d, rowM35d]

/-- A freshly initialised station (Station.dbInit) followed by a sequence of
Station.addData appends, the composition the bounds claim is about. -/
def addDataRun (base : Station) (now : ℚ) (st : Nat) (ps : List StationData) : Station :=
  List.foldl Station.addData (base.dbInit now st) ps

/-- One addData updates each running bound by a min/max with the new point. -/
theorem addData_lims (s : Station) (p : StationData) :
    (s.addData p).x_lim.1 = min s.x_lim.1 p.t ∧
    (s.addData p).x_lim.2 = max s.x_lim.2 p.t ∧
    (s.addData p).y_lim.1 = min s.y_lim.1 p.v ∧
    (s.addData p).y_lim.2 = max s.y_lim.2 p.v := by
  refine ⟨?_, ?_, ?_, ?_⟩ <;> simp only [Station.addData]
  · by_cases h : p.t < s.x_lim.1
    · rw [if_pos h, min_eq_right (le_of_lt h)]
    · rw [if_neg h, min_eq_left (not_lt.mp h)]
  · by_cases h : p.t > s.x_lim.2
    · rw [if_pos h, max_eq_right (le_of_lt h)]
    · rw [if_neg h, max_eq_left (not_lt.mp h)]
  · by_cases h : p.v < s.y_lim.1
    · rw [if_pos h, min_eq_right (le_of_lt h)]
    · rw [if_neg h, min_eq_left (not_lt.mp h)]
  · by_cases h : p.v > s.y_lim.2
    · rw [if_pos h, max_eq_right (le_of_lt h)]
    · rw [if_neg h, max_eq_left (not_lt.mp h)]

/-- The folded bounds after a run of addData are folds of min/max over the
appended timestamps and values, seeded with the initial bounds. -/
theorem foldl_addData_lims :
    ∀ (ps : List StationData) (s : Station),
      (List.foldl Station.addData s ps).x_lim.1 = (ps.map (·.t)).foldl min s.x_lim.1 ∧
      (List.foldl Station.addData s ps).x_lim.2 = (ps.map (·.t)).foldl max s.x_lim.2 ∧
      (List.foldl Station.addData s ps).y_lim.1 = (ps.map (·.v)).foldl min s.y_lim.1 ∧
      (List.foldl Station.addData s ps).y_lim.2 = (ps.map (·.v)).foldl max s.y_lim.2 := by
  intro ps
  induction ps with
  | nil => intro s; exact ⟨rfl, rfl, rfl, rfl⟩
  | cons p rest ih =>
      intro s
      obtain ⟨h1, h2, h3, h4⟩ := addData_lims s p
      obtain ⟨g1, g2, g3, g4⟩ := ih (s.addData p)
      refine ⟨?_, ?_, ?_, ?_⟩ <;>
        simp only [List.foldl_cons, List.map_cons]
      · rw [g1, h1]
      · rw [g2, h2]
      · rw [g3, h3]
      · rw [g4, h4]

/-- foldl min is a lower bound of the seed and all elements, and is attained
at the seed or at an element. -/
theorem foldl_min_spec :
    ∀ (l : List ℚ) (a : ℚ),
      (l.foldl min a ≤ a ∧ ∀ x ∈ l, l.foldl min a ≤ x) ∧
      (l.foldl min a = a ∨ l.foldl min a ∈ l) := by
  intro l
  induction l with
  | nil => intro a; exact ⟨⟨le_refl a, by intro x hx; cases hx⟩, Or.inl rfl⟩
  | cons y l ih =>
      intro a
      obtain ⟨⟨hle, hall⟩, hat⟩ := ih (min a y)
      simp only [List.foldl_cons]
      refine ⟨⟨le_trans hle (min_le_left a y), ?_⟩, ?_⟩
      · intro x hx
        rcases List.mem_cons.mp hx with hx | hx
        · subst hx; exact le_trans hle (min_le_right a x)
        · exact hall x hx
      · rcases hat with hat | hat
        · rcases min_choice a y with hm | hm
          · exact Or.inl (by rw [hat, hm])
          · exact Or.inr (by rw [hat, hm]; exact List.mem_cons_self y l)
        · exact Or.inr (List.mem_cons_of_mem y hat)

/-- foldl max is an upper bound of the seed and all elements, and is attained
at the seed or at an element. -/
theorem foldl_max_spec :
    ∀ (l : List ℚ) (a : ℚ),
      (a ≤ l.foldl max a ∧ ∀ x ∈ l, x ≤ l.foldl max a) ∧
      (l.foldl max a = a ∨ l.foldl max a ∈ l) := by
  intro l
  induction l with
  | nil => intro a; exact ⟨⟨le_refl a, by intro x hx; cases hx⟩, Or.inl rfl⟩
  | cons y l ih =>
      intro a
      obtain ⟨⟨hle, hall⟩, hat⟩ := ih (max a y)
      simp only [List.foldl_cons]
      refine ⟨⟨le_trans (le_max_left a y) hle, ?_⟩, ?_⟩
      · intro x hx
        rcases List.mem_cons.mp hx with hx | hx
        · subst hx; exact le_trans (le_max_right a x) hle
        · exact hall x hx
      · rcases hat with hat | hat
        · rcases max_choice a y with hm | hm
          · exact Or.inl (by rw [hat, hm])
          · exact Or.inr (by rw [hat, hm]; exact List.mem_cons_self y l)
        · exact Or.inr (List.mem_cons_of_mem y hat)

/-- If some element is at most the seed, foldl min lands on an element. -/
theorem foldl_min_attained (l : List ℚ) (a x0 : ℚ) (h0 : x0 ∈ l) (hx0 : x0 ≤ a) :
    l.foldl min a ∈ l := by
  obtain ⟨⟨_, hall⟩, hat⟩ := foldl_min_spec l a
  rcases hat with h | h
  · have h1 : l.foldl min a ≤ x0 := hall x0 h0
    rw [h] at h1 ⊢
    exact (le_antisymm h1 hx0) ▸ h0
  · exact h

/-- If some element is at least the seed, foldl max lands on an element. -/
theorem foldl_max_attained (l : List ℚ) (a x0 : ℚ) (h0 : x0 ∈ l) (hx0 : a ≤ x0) :
    l.foldl max a ∈ l := by
  obtain ⟨⟨_, hall⟩, hat⟩ := foldl_max_spec l a
  rcases hat with h | h
  · have h1 : x0 ≤ l.foldl max a := hall x0 h0
    rw [h] at h1 ⊢
    exact (le_antisymm hx0 h1) ▸ h0
  · exact h

/-- A base station and the sentinel-leak point for the bounds claims. -/
def exBase10 : Station :=
  { id := "D000000001", data := [], x_lim := (0, 0), y_lim := (0, 0), state := 0 }

/-- The freshly initialised station (dbInit at now = 1000) for the bounds
counterexample. -/
def exFresh10 : Station := Station.dbInit exBase10 1000 0

/-- Counterexample to C10 as stated: appending a single point with value
10000 (above the 9999.9 sentinel) to a freshly initialised station leaves
y_lim[0] at the sentinel 9999.9, which is NOT the minimum (= 10000) of the
appended values. -/
theorem C10_sentinel_bound_leaks :
    (exFresh10.addData { station := "D000000001", t := 500, v := 10000, state := 0 }).y_lim.1
      = (99999 : ℚ)/10 ∧
    ((exFresh10.addData { station := "D000000001", t := 500, v := 10000, state := 0 }).data.map
        (fun d => d.v)) = [10000] ∧
    (99999 : ℚ)/10 ≠ 10000 := by
  refine ⟨?_, ?_, by norm_num⟩
  · norm_num [exFresh10, exBase10, Station.addData, Station.dbInit]
  · norm_num [exFresh10, exBase10, Station.addData, Station.dbInit]

/-- C10 amended: for a freshly initialised station and a non-empty sequence
of appended points whose timestamps lie between 1900-01-01 and the
initialisation time and whose values lie inside the sentinel range
[0, 9999.9], the incrementally maintained x_lim is exactly [min t, max t]
and y_lim exactly [min v, max v] of the points appended so far (each bound
is both a bound and attained at some appended point); outside those ranges
the dbInit sentinels can leak into the bounds. -/
theorem C10_addData_bounds (base : Station) (now : ℚ) (st : Nat)
    (p0 : StationData) (ps : List StationData)
    (hrange : ∀ d ∈ p0 :: ps,
        date1900 ≤ d.t ∧ d.t ≤ now ∧ 0 ≤ d.v ∧ d.v ≤ (99999 : ℚ)/10) :
    (∀ d ∈ p0 :: ps,
        (addDataRun base now st (p0 :: ps)).x_lim.1 ≤ d.t ∧
        d.t ≤ (addDataRun base now st (p0 :: ps)).x_lim.2 ∧
        (addDataRun base now st (p0 :: ps)).y_lim.1 ≤ d.v ∧
        d.v ≤ (addDataRun base now st (p0 :: ps)).y_lim.2) ∧
    (∃ d ∈ p0 :: ps, (addDataRun base now st (p0 :: ps)).x_lim.1 = d.t) ∧
    (∃ d ∈ p0 :: ps, (addDataRun base now st (p0 :: ps)).x_lim.2 = d.t) ∧
    (∃ d ∈ p0 :: ps, (addDataRun base now st (p0 :: ps)).y_lim.1 = d.v) ∧
    (∃ d ∈ p0 :: ps, (addDataRun base now st (p0 :: ps)).y_lim.2 = d.v) := by
  obtain ⟨e1, e2, e3, e4⟩ := foldl_addData_lims (p0 :: ps) (base.dbInit now st)
  have hb : (base.dbInit now st).x_lim.1 = now ∧
      (base.dbInit now st).x_lim.2 = date1900 ∧
      (base.dbInit now st).y_lim.1 = (99999 : ℚ)/10 ∧
      (base.dbInit now st).y_lim.2 = 0 := ⟨rfl, rfl, rfl, rfl⟩
  rw [hb.1] at e1; rw [hb.2.1] at e2; rw [hb.2.2.1] at e3; rw [hb.2.2.2] at e4
  have hmem0t : p0.t ∈ (p0 :: ps).map (·.t) :=
    List.mem_map_of_mem _ (List.mem_cons_self p0 ps)
  have hmem0v : p0.v ∈ (p0 :: ps).map (·.v) :=
    List.mem_map_of_mem _ (List.mem_cons_self p0 ps)
  obtain ⟨h0t1, h0t2, h0v1, h0v2⟩ := hrange p0 (List.mem_cons_self p0 ps)
  refine ⟨?_, ?_, ?_, ?_, ?_⟩
  · intro d hd
    obtain ⟨⟨_, hminall⟩, _⟩ := foldl_min_spec ((p0 :: ps).map (·.t)) now
    obtain ⟨⟨_, hmaxall⟩, _⟩ := foldl_max_spec ((p0 :: ps).map (·.t)) date1900
    obtain ⟨⟨_, hminv⟩, _⟩ := foldl_min_spec ((p0 :: ps).map (·.v)) ((99999 : ℚ)/10)
    obtain ⟨⟨_, hmaxv⟩, _⟩ := foldl_max_spec ((p0 :: ps).map (·.v)) 0
    have hdt : d.t ∈ (p0 :: ps).map (·.t) := List.mem_map_of_mem _ hd
    have hdv : d.v ∈ (p0 :: ps).map (·.v) := List.mem_map_of_mem _ hd
    exact ⟨by rw [addDataRun, e1]; exact hminall _ hdt,
           by rw [addDataRun, e2]; exact hmaxall _ hdt,
           by rw [addDataRun, e3]; exact hminv _ hdv,
           by rw [addDataRun, e4]; exact hmaxv _ hdv⟩
  · have hat := foldl_min_attained ((p0 :: ps).map (·.t)) now p0.t hmem0t h0t2
    obtain ⟨d, hd, hdt⟩ := List.mem_map.mp hat
    exact ⟨d, hd, by rw [addDataRun, e1, ← hdt]⟩
  · have hat := foldl_max_attained ((p0 :: ps).map (·.t)) date1900 p0.t hmem0t h0t1
    obtain ⟨d, hd, hdt⟩ := List.mem_map.mp hat
    exact ⟨d, hd, by rw [addDataRun, e2, ← hdt]⟩
  · have hat := foldl_min_attained ((p0 :: ps).map (·.v)) ((99999 : ℚ)/10) p0.v hmem0v h0v2
    obtain ⟨d, hd, hdv⟩ := List.mem_map.mp hat
    exact ⟨d, hd, by rw [addDataRun, e3, ← hdv]⟩
  · have hat := foldl_max_attained ((p0 :: ps).map (·.v)) 0 p0.v hmem0v h0v1
    obtain ⟨d, hd, hdv⟩ := List.mem_map.mp hat
    exact ⟨d, hd, by rw [addDataRun, e4, ← hdv]⟩

/-- The in-range point for the bounds witness. -/
def exP10 : StationData := { station := "D000000001", t := 500, v := 1, state := 0 }

/-- Witness for C10 amended at a single in-range appended point. -/
theorem C10_addData_bounds_witness :
    (∀ d ∈ [exP10],
        (addDataRun exBase10 1000 0 [exP10]).x_lim.1 ≤ d.t ∧
        d.t ≤ (addDataRun exBase10 1000 0 [exP10]).x_lim.2 ∧
        (addDataRun exBase10 1000 0 [exP10]).y_lim.1 ≤ d.v ∧
        d.v ≤ (addDataRun exBase10 1000 0 [exP10]).y_lim.2) ∧
    (∃ d ∈ [exP10], (addDataRun exBase10 1000 0 [exP10]).x_lim.1 = d.t) ∧
    (∃ d ∈ [exP10], (addDataRun exBase10 1000 0 [exP10]).x_lim.2 = d.t) ∧
    (∃ d ∈ [exP10], (addDataRun exBase10 1000 0 [exP10]).y_lim.1 = d.v) ∧
    (∃ d ∈ [exP10], (addDataRun exBase10 1000 0 [exP10]).y_lim.2 = d.v) :=
  C10_addData_bounds exBase10 1000 0 exP10 []
    (by
      intro d hd
      simp only [List.mem_singleton] at hd
      subst hd
      refine ⟨by norm_num [exP10, date1900], by norm_num [exP10],
              by norm_num [exP10], by norm_num [exP10]⟩)
